import Mathlib

/-
Verification of the resilient photo traversal-and-transfer engine
(source: VibeCode.py, class SafeiPhonePhotoReader).

The Python source is shallowly embedded: pure classification and
normalization helpers become Lean functions on String; the remote AFC
service is an abstract record of listing/isdir/stat functions; stateful
download logic becomes pure functions over explicit environments, with
an explicit operation trace standing for the I/O the code performs; the
asynchronous cancellation flag is modelled as a poll schedule (a chunk
level stop time) where the claims need it, and as a constant Boolean
elsewhere.  Python exceptions become Except or Option values.  Python
floats appear only as the division by 1024*1024 in the analysis summary;
dividing by a power of two is exact in IEEE floating point whenever the
dividend is itself representable, so the Rat-division model is faithful
exactly for byte sums below 2 ^ 53, and every statement that depends on
the value of that quotient is made under that bound.
-/

/-! ### String helpers mirroring Python primitives -/

/-- Index of the last occurrence of a character, as Python str.rfind:
minus one when the character is absent. -/
def lastIndexOf (s : List Char) (c : Char) : Int :=
  match (((List.range s.length).filter (fun i => s.get? i == some c)).max?) with
  | some i => (i : Int)
  | none => -1

/-- Extension part of os.path.splitext (posix rules): the substring from
the last dot, provided that dot lies after the last slash and at least
one non-dot character of the basename precedes it. -/
def pyExt (p : String) : String :=
  let s := p.data
  let sepIndex := lastIndexOf s '/'
  let dotIndex := lastIndexOf s '.'
  if sepIndex < dotIndex then
    if (List.range' (sepIndex + 1).toNat (dotIndex.toNat - (sepIndex + 1).toNat)).any
        (fun i => s.get? i != some '.') then
      String.mk (s.drop dotIndex.toNat)
    else ""
  else ""

/-- Python os.path.basename: everything after the last slash. -/
def pyBasename (p : String) : String :=
  String.mk ((p.data.reverse.takeWhile (fun c => c != '/')).reverse)

/-- Python str.rstrip applied with a slash argument: drop trailing slashes. -/
def pyRstripSlash (p : String) : String :=
  String.mk ((p.data.reverse.dropWhile (fun c => c == '/')).reverse)

/-- Python str.lower, character by character (the data here is ASCII, on
which Python lowering agrees with Char.toLower). -/
def pyToLower (s : String) : String := String.mk (s.data.map Char.toLower)

/-- Python str.endswith: the argument equals the trailing slice of the
string of the same length. -/
def pyEndsWith (s suffixStr : String) : Bool :=
  s.data.drop (s.data.length - suffixStr.data.length) == suffixStr.data

/-- The media extension set of is_media_file (source lines 428-439). -/
def media_extensions : List String :=
  [".jpg", ".jpeg", ".png", ".gif", ".bmp", ".tiff", ".tif",
   ".heic", ".heif", ".webp", ".raw", ".dng", ".cr2", ".nef",
   ".mov", ".mp4", ".avi", ".mkv", ".m4v", ".3gp", ".wmv",
   ".flv", ".webm", ".mpg", ".mpeg"]

/-- is_media_file: lowercase the filename and test each media extension
as a suffix (source lines 428-439). -/
def is_media_file (filename : String) : Bool :=
  media_extensions.any (fun ext => pyEndsWith (pyToLower filename) ext)

/-- The image extension list hard-coded in get_file_type (source line 463).
Note it lacks .tif, .cr2 and .nef although is_media_file accepts them. -/
def image_extensions : List String :=
  [".jpg", ".jpeg", ".png", ".gif", ".bmp", ".tiff", ".heic", ".heif",
   ".webp", ".raw", ".dng"]

/-- The video extension list hard-coded in get_file_type (source line 465).
Note it lacks .flv, .webm, .mpg and .mpeg although is_media_file accepts
them. -/
def video_extensions : List String :=
  [".mov", ".mp4", ".avi", ".mkv", ".m4v", ".3gp", ".wmv"]

/-- get_file_type (source lines 460-468): classify by the splitext
extension, lowercased, against the two hard-coded lists. -/
def get_file_type (file_path : String) : String :=
  let ext := pyToLower (pyExt file_path)
  if ext ∈ image_extensions then "image"
  else if ext ∈ video_extensions then "video"
  else "unknown"

/-- Modelled from the spec: the image extension set the specification
names (jpg jpeg png gif bmp tiff heic heif webp raw dng cr2 nef); used
only to compare the claim against the source lists above. -/
def specImageExts : List String :=
  [".jpg", ".jpeg", ".png", ".gif", ".bmp", ".tiff", ".heic", ".heif",
   ".webp", ".raw", ".dng", ".cr2", ".nef"]

/-- Modelled from the spec: the video extension set the specification
names (mov mp4 avi mkv m4v 3gp wmv flv webm mpg mpeg). -/
def specVideoExts : List String :=
  [".mov", ".mp4", ".avi", ".mkv", ".m4v", ".3gp", ".wmv", ".flv",
   ".webm", ".mpg", ".mpeg"]

/-! ### safe_listdir normalization (source lines 276-291)

The enumeration primitives return a heterogeneous sequence: plain
strings, or records carrying a name or filename field.  The loop filters
an item against the three pseudo-entries first and only then, for
records, extracts the field. -/

/-- A raw listing entry as the remote service may return it. -/
inductive RawEntry where
  | str (s : String)
  | dict (fields : List (String × String))
deriving DecidableEq

/-- What the filtering loop body contributes for one raw item.  The
membership test against the pseudo-entries compares the raw item, so a
record never matches it (a Python dict never equals a string); the
extracted field is appended unchecked. -/
def normalizeEntry : RawEntry → List String
  | RawEntry.str s => if s = "." ∨ s = ".." ∨ s = "" then [] else [s]
  | RawEntry.dict fields =>
    match fields.lookup ("name") with
    | some v => [v]
    | none =>
      match fields.lookup ("filename") with
      | some v => [v]
      | none => []

/-- The filtered_items accumulation loop of safe_listdir. -/
def safe_listdir_filter (items : List RawEntry) : List String :=
  items.foldl (fun acc item => acc ++ normalizeEntry item) []

/-! ### update_progress (source lines 89-93)

The callback is invoked with no surrounding try block, so an exception
it raises propagates to the caller.  The model returns the outcome
(the status message set, or the propagated error) together with the
number of observer invocations. -/

/-- update_progress: set status_message, then invoke the registered
callback if any.  There is no exception handler around the call. -/
def update_progress (callback : Option (Nat → Nat → String → Except String Unit))
    (current total : Nat) (message : String) : Except String String × Nat :=
  match callback with
  | none => (Except.ok message, 0)
  | some cb =>
    match cb current total message with
    | Except.ok _ => (Except.ok message, 1)
    | Except.error e => (Except.error e, 1)

/-! ### Bounded recursive scanner (source lines 368-426)

The remote service is abstracted to its two primitives the scanner uses:
safe_listdir (already normalized: an ordered list of entry names, or
none when every method failed or the path is absent) and isdir, where
none models the per-entry exception the loop catches and skips.  The
cancellation flag is modelled as a Boolean constant for the duration of
a scan; the in-loop re-checks of a constant flag are then redundant, so
only the function-head check appears. -/

structure AfcFS where
  listdir : String → Option (List String)
  isdir : String → Option Bool

/-- The body of the per-entry partition loop of scan_photos_safe:
directories accumulate into the second component, media files into the
first, entries whose isdir call raises are skipped. -/
def scanStep (fs : AfcFS) (directory_path : String)
    (acc : List String × List String) (item : String) : List String × List String :=
  let item_path := pyRstripSlash directory_path ++ "/" ++ item
  match fs.isdir item_path with
  | none => acc
  | some true => (acc.1, acc.2 ++ [item_path])
  | some false =>
    if is_media_file item then (acc.1 ++ [item_path], acc.2) else acc

/-- scan_photos_safe: return empty at non-positive depth or when
stopped; otherwise list the directory, partition its entries, and
recurse with decremented depth into at most the first 20 subdirectories. -/
def scan_photos_safe (fs : AfcFS) (stopped : Bool) (directory_path : String)
    (max_depth : Int) : List String :=
  if h : max_depth ≤ 0 ∨ stopped = true then []
  else
    match fs.listdir directory_path with
    | none => []
    | some items =>
      let part := items.foldl (scanStep fs directory_path) ([], [])
      part.1 ++
        ((part.2.take 20).map
          (fun sub => scan_photos_safe fs stopped sub (max_depth - 1))).flatten
termination_by max_depth.toNat
decreasing_by
  have h1 : ¬ max_depth ≤ 0 := fun hle => h (Or.inl hle)
  omega

/-- Structural companion of scan_photos_safe: the same computation with
the depth budget carried as a Nat fuel consumed one unit per recursion
level.  Equality with scan_photos_safe (proved below) is the formal
sense in which the recursion depth is strictly bounded by max_depth. -/
def scanFuel (fs : AfcFS) (stopped : Bool) : Nat → String → List String
  | 0, _ => []
  | Nat.succ n, dp =>
    if stopped = true then []
    else
      match fs.listdir dp with
      | none => []
      | some items =>
        let part := items.foldl (scanStep fs dp) ([], [])
        part.1 ++ ((part.2.take 20).map (fun sub => scanFuel fs stopped n sub)).flatten

/-- Worst-case directory count reachable with the per-level fan-out cap
of 20: fanBound d = 1 + 20 + ... + 20 ^ (d - 1). -/
def fanBound : Nat → Nat
  | 0 => 0
  | Nat.succ n => 1 + 20 * fanBound n

/-! ### Scanner output records and the analysis summary
(source lines 441-468 and 661-756) -/

/-- The stat result shape get_file_info_safe reads. -/
structure StatInfo where
  st_size : Nat
  st_mtime : Nat
  st_birthtime : Nat
deriving DecidableEq

/-- The per-file record produced by get_file_info_safe.  The field
ftype carries the source's type entry. -/
structure PhotoInfo where
  path : String
  name : String
  size : Nat
  modified : Nat
  created : Nat
  ftype : String
deriving DecidableEq

/-- get_file_info_safe: none when the stat call raises, otherwise the
record with the classification of get_file_type. -/
def get_file_info_safe (stat : String → Option StatInfo) (file_path : String) :
    Option PhotoInfo :=
  match stat file_path with
  | none => none
  | some st =>
    some ⟨file_path, pyBasename file_path, st.st_size, st.st_mtime,
      st.st_birthtime, get_file_type file_path⟩

/-- The analysis summary built at the end of analyze_photos_safe.  Note
the stored aggregate is total_size_mb, the byte sum divided by
1024 * 1024.  The source's float division is modelled as Rat division,
which agrees with the correctly-rounded double exactly when the byte sum
is below 2 ^ 53 (a power-of-two division only shifts the exponent);
statements about the quotient's value carry that bound. -/
structure AnalysisResult where
  total_files : Nat
  image_count : Nat
  video_count : Nat
  total_size_mb : Rat
  photos_info : List PhotoInfo
deriving DecidableEq

/-- The statistics step of analyze_photos_safe (source lines 734-745):
none when no media file was found, otherwise the summary record. -/
def analyze_stats (all_photos : List PhotoInfo) : Option AnalysisResult :=
  if all_photos.isEmpty then none
  else
    let total_size : Nat := (all_photos.map (fun p => p.size)).sum
    some
      { total_files := all_photos.length
        image_count := (all_photos.filter (fun p => p.ftype == "image")).length
        video_count := (all_photos.filter (fun p => p.ftype == "video")).length
        total_size_mb := (total_size : Rat) / (1024 * 1024)
        photos_info := all_photos }

/-- The per-directory record collection loop of analyze_photos_safe:
stat each scanned path in order, appending the record when the stat
succeeded. -/
def collect_file_infos (stat : String → Option StatInfo) (photos : List String) :
    List PhotoInfo :=
  photos.foldl (fun acc photo =>
    match get_file_info_safe stat photo with
    | some info => acc ++ [info]
    | none => acc) []

/-- The scan-then-stat-then-summarize pipeline of analyze_photos_safe
over the discovered directory list, with the default depth 3 and no
cancellation. -/
def analyze_photos_safe (fs : AfcFS) (stat : String → Option StatInfo)
    (directories : List String) : Option AnalysisResult :=
  let all_photos := directories.foldl (fun acc dir =>
    acc ++ collect_file_infos stat (scan_photos_safe fs false dir 3)) []
  analyze_stats all_photos

/-! ### Multi-strategy file transfer (download_file_safe, source lines 496-562)

One download attempt by a strategy either returns a Boolean (the source
functions return False instead of raising when they observe the stop
flag) or raises with a message.  The surrounding filesystem state the
function consults is collected into an environment record, and the local
I/O the function performs is recorded as an operation trace: the parent
directory creation, the local existence probe, the local size read, and
each strategy invocation.  The best-effort modification-time update on
the success path is elided from the trace (it affects neither the return
value nor any claim). -/

/-- Outcome of invoking one download strategy. -/
inductive StratResult where
  | ok (b : Bool)
  | exc (msg : String)
deriving DecidableEq

/-- The I/O operations download_file_safe performs, in order. -/
inductive DlOp where
  | mkdirParents
  | checkExists
  | getSize
  | tryStream
  | tryBulk
  | tryPull
deriving DecidableEq

/-- The nested try blocks of source lines 514-534: each later strategy
runs only when the previous one raised; when all three raise, the three
errors are aggregated. -/
def strategy_phase : StratResult → StratResult → StratResult →
    Except (String × String × String) Bool
  | StratResult.ok b, _, _ => Except.ok b
  | StratResult.exc _, StratResult.ok b, _ => Except.ok b
  | StratResult.exc _, StratResult.exc _, StratResult.ok b => Except.ok b
  | StratResult.exc e1, StratResult.exc e2, StratResult.exc e3 =>
    Except.error (e1, e2, e3)

/-- Which strategies the nested try blocks invoke, in order. -/
def stratOps : StratResult → StratResult → StratResult → List DlOp
  | StratResult.ok _, _, _ => [DlOp.tryStream]
  | StratResult.exc _, StratResult.ok _, _ => [DlOp.tryStream, DlOp.tryBulk]
  | StratResult.exc _, StratResult.exc _, _ =>
    [DlOp.tryStream, DlOp.tryBulk, DlOp.tryPull]

/-- The filesystem and cancellation state download_file_safe reads:
the stop flag at entry, local existence and size of the destination
before the transfer, the stop flag after the strategy phase, and local
existence after a successful write. -/
structure DlEnv where
  stoppedAtEntry : Bool
  localExists : Bool
  localSize : Nat
  stoppedAfterPhase : Bool
  existsAfterDownload : Bool
deriving DecidableEq

/-- The already-downloaded pre-check of source lines 507-512: the local
file exists, file_info is truthy, and the sizes agree with a positive
remote size.  A file_info lacking a size key reads as size 0 and never
skips. -/
def skip_check (env : DlEnv) (fi : Option Nat) : Bool :=
  env.localExists &&
    (match fi with
     | some remote_size => (env.localSize == remote_size) && decide (0 < remote_size)
     | none => false)

/-- What download_file_safe reports: the returned Boolean, the
aggregated three-error log emitted only when every strategy raised, and
the trace of local operations performed. -/
structure DlResult where
  ok : Bool
  aggregated : Option (String × String × String)
  ops : List DlOp
deriving DecidableEq

/-- download_file_safe.  Fidelity notes: the parent-directory creation
of source line 504 runs before the existence check of line 507; the
local size is read only when the file exists and file_info is truthy;
the skip path returns True without touching any strategy; an aggregated
failure returns False; after a successful strategy the function
re-probes the local file (and reads its size for the warning-only
verification) and returns True, or False when the file is absent. -/
def download_file_safe (env : DlEnv) (fi : Option Nat) (r1 r2 r3 : StratResult) :
    DlResult :=
  if env.stoppedAtEntry then ⟨false, none, []⟩
  else
    let sizeOps : List DlOp :=
      if env.localExists && fi.isSome then [DlOp.getSize] else []
    let preOps : List DlOp := DlOp.mkdirParents :: DlOp.checkExists :: sizeOps
    if skip_check env fi then ⟨true, none, preOps⟩
    else
      match strategy_phase r1 r2 r3 with
      | Except.error es => ⟨false, some es, preOps ++ stratOps r1 r2 r3⟩
      | Except.ok success =>
        if success && !env.stoppedAfterPhase then
          if env.existsAfterDownload then
            ⟨true, none, preOps ++ stratOps r1 r2 r3 ++ [DlOp.checkExists, DlOp.getSize]⟩
          else ⟨false, none, preOps ++ stratOps r1 r2 r3 ++ [DlOp.checkExists]⟩
        else ⟨success, none, preOps ++ stratOps r1 r2 r3⟩

/-! ### Streamed copy (download_with_stream, source lines 564-592)

The monotone cancellation flag is modelled by an optional stop time over
the sequence of polls the function makes: one poll at each loop head and
one final poll after the loop.  The remote file is its chunk sequence;
the local filesystem is a map from paths to chunk-sequence contents,
where opening for write creates the file and os.remove deletes it. -/

/-- The stop flag as observed at poll number n: set from the stop time
onward. -/
def isStoppedAt (stopAt : Option Nat) (n : Nat) : Bool :=
  match stopAt with
  | none => false
  | some t => decide (t ≤ n)

/-- The chunk-copy loop: poll the flag, read a chunk, break on the empty
read, otherwise write it and continue.  Returns the chunks written and
the number of polls consumed. -/
def streamGo (stopAt : Option Nat) (chunks : List (List Nat)) (n : Nat) :
    List (List Nat) × Nat :=
  if isStoppedAt stopAt n then ([], n + 1)
  else
    match chunks with
    | [] => ([], n + 1)
    | c :: rest =>
      if c.isEmpty then ([], n + 1)
      else
        let r := streamGo stopAt rest (n + 1)
        (c :: r.1, r.2)

/-- Point update of the modelled local filesystem. -/
def fsUpdate (m : String → Option (List (List Nat))) (p : String)
    (v : Option (List (List Nat))) : String → Option (List (List Nat)) :=
  fun q => if q = p then v else m q

/-- download_with_stream: run the copy loop (the open-for-write has
created the local file), then re-check the flag: when stopped, remove
the partial local file and return False; otherwise the file holds the
copied chunks and the function returns True. -/
def download_with_stream (localfs : String → Option (List (List Nat)))
    (local_path : String) (stopAt : Option Nat) (chunks : List (List Nat)) :
    (String → Option (List (List Nat))) × Bool :=
  let run := streamGo stopAt chunks 0
  if isStoppedAt stopAt run.2 then (fsUpdate localfs local_path none, false)
  else (fsUpdate localfs local_path (some run.1), true)

/-! ### Batch orchestrator (download_photos_batch_safe, source lines 620-659)

Records are processed strictly in order; the stop flag is polled before
each file (modelled as a function of the file index); each per-file
transfer outcome is the Boolean download_file_safe returns.  Besides the
success and failure counters of the source, the model also returns the
list of records actually processed, to witness sequencing. -/

/-- The per-record counting loop. -/
def batch_go {α : Type} (stop : Nat → Bool) (transfer : α → Bool) :
    List α → Nat → Nat × Nat × List α
  | [], _ => (0, 0, [])
  | r :: rest, i =>
    if stop i then (0, 0, [])
    else
      let t := batch_go stop transfer rest (i + 1)
      if transfer r then (t.1 + 1, t.2.1, r :: t.2.2)
      else (t.1, t.2.1 + 1, r :: t.2.2)

/-- download_photos_batch_safe: sequential fold over the records with
indices from zero; an empty record list yields the (0, 0) counters
directly as in source lines 622-624. -/
def download_photos_batch_safe {α : Type} (stop : Nat → Bool) (transfer : α → Bool)
    (records : List α) : Nat × Nat × List α :=
  batch_go stop transfer records 0

/-! ### Concrete instances used by witnesses and counterexamples -/

/-- Environment of an already-complete local copy: not stopped, the
local file exists with size 5. -/
def wDlEnvSkip : DlEnv := ⟨false, true, 5, false, true⟩

/-- Environment of a fresh successful download: not stopped, no local
file beforehand, the written file present afterwards. -/
def wDlEnvFresh : DlEnv := ⟨false, false, 0, false, true⟩

/-- A successful per-file outcome used as a batch record. -/
def wOkResult : DlResult := ⟨true, none, []⟩

/-- A local filesystem holding one previously completed download. -/
def wLocalFS : String → Option (List (List Nat)) :=
  fun q => if q = "/out/old.jpg" then some [[9]] else none

/-- A concrete remote tree for the C6 witness: every directory lists the
same two entries and every path is a directory. -/
def wScanFS : AfcFS :=
  ⟨fun _ => some [("a.jpg"), ("b")], fun _ => some true⟩

/-- Concrete remote tree for C1: one directory holding a single .cr2
file, an extension is_media_file accepts but get_file_type does not map
to image. -/
def cexFS : AfcFS :=
  ⟨fun p => if p = "/DCIM" then some [("a.cr2")] else none, fun _ => some false⟩

/-- Concrete stat data for C1: every path stats successfully. -/
def cexStat : String → Option StatInfo := fun _ => some ⟨100, 7, 3⟩

/-- The record the C1 pipeline produces for the .cr2 file. -/
def cexRecord : PhotoInfo := ⟨"/DCIM/a.cr2", "a.cr2", 100, 7, 3, "unknown"⟩

/-- The analysis summary the C1 pipeline produces. -/
def cexAnalysis : AnalysisResult :=
  ⟨1, 0, 0, (100 : Rat) / (1024 * 1024), [cexRecord]⟩

/-- Concrete record for C8: a single two-mebibyte image. -/
def c8Photo : PhotoInfo := ⟨"/DCIM/a.jpg", "a.jpg", 2097152, 0, 0, "image"⟩

/-- The summary for that record: the stored size aggregate is 2 (the
megabyte value), not the byte sum 2097152. -/
def c8Analysis : AnalysisResult := ⟨1, 1, 0, 2, [c8Photo]⟩

/-! ### Helper lemmas -/

/-- Accumulating appends in a left fold is joining the mapped lists. -/
theorem foldl_append_eq {α β : Type} (f : α → List β) (items : List α) (acc : List β) :
    items.foldl (fun a x => a ++ f x) acc = acc ++ (items.map f).flatten := by
  induction items generalizing acc with
  | nil => simp
  | cons x xs ih => simp [List.foldl, ih]

theorem safe_listdir_filter_eq_flatten (items : List RawEntry) :
    safe_listdir_filter items = (items.map normalizeEntry).flatten := by
  unfold safe_listdir_filter
  simpa using foldl_append_eq normalizeEntry items []

/-! ### Claim theorems for C2 and C9 -/

/-- C2 counterexample: a dict-shaped entry whose name field is the self
pseudo-entry passes the raw-item filter, and its extracted name is
returned, so the normalized listing does contain a dot entry.  This
refutes the claim that the normalized listing never contains such an
entry. -/
theorem C2_counterexample :
    safe_listdir_filter [RawEntry.dict [(("name"), ("."))]] = [("." : String)] := by
  decide

/-- C2 (amended): every self, parent or empty entry of the normalized
listing originates from a dict-shaped raw entry via its name or
filename field; string-shaped pseudo-entries are always filtered out. -/
theorem C2_pseudo_entries_from_dicts (items : List RawEntry) (s : String)
    (hs : s ∈ safe_listdir_filter items) (hp : s = "." ∨ s = ".." ∨ s = "") :
    ∃ fields, RawEntry.dict fields ∈ items ∧ s ∈ normalizeEntry (RawEntry.dict fields) := by
  rw [safe_listdir_filter_eq_flatten] at hs
  rcases List.mem_flatten.mp hs with ⟨l, hl, hsl⟩
  rcases List.mem_map.mp hl with ⟨e, he, rfl⟩
  cases e with
  | str t =>
    by_cases hfilter : t = "." ∨ t = ".." ∨ t = ""
    · simp [normalizeEntry, hfilter] at hsl
    · simp [normalizeEntry, hfilter] at hsl
      subst hsl
      exact absurd hp hfilter
  | dict fields => exact ⟨fields, he, hsl⟩

/-- C2 witness: the amended theorem applied to the concrete listing of a
single dict-shaped entry named dot. -/
theorem C2_witness :
    ((("." : String) ∈ safe_listdir_filter [RawEntry.dict [(("name"), ("."))]]) ∧
      ((("." : String) = ".") ∨ (("." : String) = "..") ∨ (("." : String) = ""))) ∧
    (∃ fields, RawEntry.dict fields ∈ [RawEntry.dict [(("name"), ("."))]] ∧
      ("." : String) ∈ normalizeEntry (RawEntry.dict fields)) :=
  ⟨⟨by decide, Or.inl rfl⟩,
    C2_pseudo_entries_from_dicts [RawEntry.dict [(("name"), ("."))]] "."
      (by decide) (Or.inl rfl)⟩

/-- C9 counterexample: with a registered observer whose invocation
raises, update_progress propagates the exception to its caller, because
the source invokes the callback with no exception handler.  This refutes
the claim that update_progress never raises. -/
theorem C9_counterexample :
    update_progress (some (fun _ _ _ => Except.error ("boom"))) 1 2 ("msg") =
      (Except.error ("boom"), 1) := rfl

/-- C9 (amended): update_progress invokes zero observers when none is
registered and exactly one otherwise; it returns normally whenever the
observer does, but an exception raised by the observer propagates
unchanged rather than being swallowed. -/
theorem C9_progress (callback : Option (Nat → Nat → String → Except String Unit))
    (current total : Nat) (message : String) :
    ((update_progress callback current total message).2 ≤ 1) ∧
    (callback = none →
      update_progress callback current total message = (Except.ok message, 0)) ∧
    (∀ cb, callback = some cb → ∀ u, cb current total message = Except.ok u →
      update_progress callback current total message = (Except.ok message, 1)) ∧
    (∀ cb e, callback = some cb → cb current total message = Except.error e →
      update_progress callback current total message = (Except.error e, 1)) := by
  refine ⟨?_, ?_, ?_, ?_⟩
  · cases callback with
    | none => simp [update_progress]
    | some cb =>
      cases h : cb current total message with
      | ok u => simp [update_progress, h]
      | error e => simp [update_progress, h]
  · intro h; subst h; rfl
  · intro cb h u hu; subst h; simp [update_progress, hu]
  · intro cb e h he; subst h; simp [update_progress, he]

/-- C9 witness: the amended theorem applied to a concrete raising
observer; the propagation conjunct is discharged at that observer. -/
theorem C9_witness :
    ((update_progress (some (fun _ _ _ => Except.error ("boom"))) 1 2 ("m")).2 ≤ 1) ∧
    ((some (fun _ _ _ => Except.error ("boom")) :
        Option (Nat → Nat → String → Except String Unit)) = none →
      update_progress (some (fun _ _ _ => Except.error ("boom"))) 1 2 ("m") =
        (Except.ok ("m"), 0)) ∧
    (∀ cb, (some (fun _ _ _ => Except.error ("boom")) :
        Option (Nat → Nat → String → Except String Unit)) = some cb →
      ∀ u, cb 1 2 ("m") = Except.ok u →
      update_progress (some (fun _ _ _ => Except.error ("boom"))) 1 2 ("m") =
        (Except.ok ("m"), 1)) ∧
    (∀ cb e, (some (fun _ _ _ => Except.error ("boom")) :
        Option (Nat → Nat → String → Except String Unit)) = some cb →
      cb 1 2 ("m") = Except.error e →
      update_progress (some (fun _ _ _ => Except.error ("boom"))) 1 2 ("m") =
        (Except.error e, 1)) :=
  C9_progress (some (fun _ _ _ => Except.error ("boom"))) 1 2 ("m")

/-! ### Scanner lemmas -/

/-- scan_photos_safe's recursion is structurally bounded: it computes
the same list as the fuel-indexed scanFuel with fuel the non-negative
part of max_depth, each recursion level consuming one unit. -/
theorem scan_eq_fuel_aux (fs : AfcFS) (stopped : Bool) :
    ∀ (n : Nat) (d : Int), d.toNat = n →
      ∀ dp, scan_photos_safe fs stopped dp d = scanFuel fs stopped n dp := by
  intro n
  induction n with
  | zero =>
    intro d hd dp
    have hle : d ≤ 0 := by omega
    rw [scan_photos_safe]
    simp [hle, scanFuel]
  | succ n ih =>
    intro d hd dp
    have hd0 : ¬ d ≤ 0 := by omega
    rw [scan_photos_safe]
    cases stopped with
    | true => simp [hd0, scanFuel]
    | false =>
      have hrec : (fun sub => scan_photos_safe fs false sub (d - 1)) =
          (fun sub => scanFuel fs false n sub) :=
        funext fun sub => ih (d - 1) (by omega) sub
      cases hfs : fs.listdir dp with
      | none => simp [hd0, scanFuel, hfs]
      | some items => simp [hd0, scanFuel, hfs, hrec]

theorem scan_photos_safe_eq_fuel (fs : AfcFS) (stopped : Bool) (dp : String) (d : Int) :
    scan_photos_safe fs stopped dp d = scanFuel fs stopped d.toNat dp :=
  scan_eq_fuel_aux fs stopped d.toNat d rfl dp

/-- The partition loop never produces more entries than it consumed. -/
theorem scanStep_foldl_length (fs : AfcFS) (dp : String) :
    ∀ (items : List String) (acc : List String × List String),
      (items.foldl (scanStep fs dp) acc).1.length +
        (items.foldl (scanStep fs dp) acc).2.length ≤
        acc.1.length + acc.2.length + items.length := by
  intro items
  induction items with
  | nil => intro acc; simp
  | cons x xs ih =>
    intro acc
    have hstep : (scanStep fs dp acc x).1.length + (scanStep fs dp acc x).2.length ≤
        acc.1.length + acc.2.length + 1 := by
      cases h : fs.isdir (pyRstripSlash dp ++ "/" ++ x) with
      | none => simp [scanStep, h]
      | some b =>
        cases b with
        | true => simp [scanStep, h] <;> omega
        | false =>
          by_cases hm : is_media_file x = true
          · simp [scanStep, h, hm] <;> omega
          · simp [scanStep, h, hm]
    have hrest := ih (scanStep fs dp acc x)
    rw [List.foldl_cons]
    simp only [List.length_cons]
    omega

/-- Output size bound for the fuel scanner: with every listing of length
at most L, a scan of depth n returns at most L * fanBound n paths —
only the first 20 subdirectories of a level contribute, whatever the
actual fan-out. -/
theorem scanFuel_length_le (fs : AfcFS) (stopped : Bool) (L : Nat)
    (hL : ∀ q l, fs.listdir q = some l → l.length ≤ L) :
    ∀ (n : Nat) (dp : String), (scanFuel fs stopped n dp).length ≤ L * fanBound n := by
  intro n
  induction n with
  | zero => intro dp; simp [scanFuel, fanBound]
  | succ n ih =>
    intro dp
    by_cases hs : stopped = true
    · simp [scanFuel, hs]
    · cases hfs : fs.listdir dp with
      | none => simp [scanFuel, hs, hfs]
      | some items =>
        have hitems : items.length ≤ L := hL dp items hfs
        have hpart := scanStep_foldl_length fs dp items ([], [])
        simp only [List.length_nil, Nat.zero_add] at hpart
        have hfiles : (items.foldl (scanStep fs dp) ([], [])).1.length ≤ L := by omega
        have hsum :
            (((items.foldl (scanStep fs dp) ([], [])).2.take 20).map
              (fun sub => scanFuel fs stopped n sub)).flatten.length ≤
              20 * (L * fanBound n) := by
          rw [List.length_flatten, List.map_map]
          have hb := List.sum_le_card_nsmul
            (((items.foldl (scanStep fs dp) ([], [])).2.take 20).map
              (List.length ∘ fun sub => scanFuel fs stopped n sub))
            (L * fanBound n) ?_
          · have hcard :
                (((items.foldl (scanStep fs dp) ([], [])).2.take 20).map
                  (List.length ∘ fun sub => scanFuel fs stopped n sub)).length ≤ 20 := by
              rw [List.length_map, List.length_take]
              omega
            calc (((items.foldl (scanStep fs dp) ([], [])).2.take 20).map
                    (List.length ∘ fun sub => scanFuel fs stopped n sub)).sum ≤ _ := hb
              _ ≤ 20 * (L * fanBound n) := by
                  rw [smul_eq_mul]
                  exact Nat.mul_le_mul_right (L * fanBound n) hcard
          · intro x hx
            rcases List.mem_map.mp hx with ⟨sub, hsub, rfl⟩
            exact ih sub
        have hlen : (scanFuel fs stopped (Nat.succ n) dp).length =
            (items.foldl (scanStep fs dp) ([], [])).1.length +
            (((items.foldl (scanStep fs dp) ([], [])).2.take 20).map
              (fun sub => scanFuel fs stopped n sub)).flatten.length := by
          simp [scanFuel, hs, hfs]
        rw [hlen]
        calc (items.foldl (scanStep fs dp) ([], [])).1.length +
              (((items.foldl (scanStep fs dp) ([], [])).2.take 20).map
                (fun sub => scanFuel fs stopped n sub)).flatten.length ≤
              L + 20 * (L * fanBound n) := Nat.add_le_add hfiles hsum
          _ = L * fanBound (Nat.succ n) := by rw [fanBound]; ring

/-- C6: scan_photos_safe is total by construction; called with a
non-positive max_depth it returns the empty list immediately; its
recursion is structurally bounded by max_depth (it equals the
fuel-indexed scanner with fuel the non-negative part of max_depth,
each recursive call decrementing it); and since only the first 20
subdirectories of each directory are recursed into, the output over any
tree whose listings have at most L entries is bounded by
L * fanBound max_depth, fanBound being the depth-truncated geometric
series with ratio 20. -/
theorem C6_scan_bounded (fs : AfcFS) (stopped : Bool) (dp : String) (d : Int) (L : Nat)
    (hL : ∀ q l, fs.listdir q = some l → l.length ≤ L) :
    (d ≤ 0 → scan_photos_safe fs stopped dp d = []) ∧
    scan_photos_safe fs stopped dp d = scanFuel fs stopped d.toNat dp ∧
    (scan_photos_safe fs stopped dp d).length ≤ L * fanBound d.toNat := by
  refine ⟨?_, scan_photos_safe_eq_fuel fs stopped dp d, ?_⟩
  · intro hd
    rw [scan_photos_safe]
    simp [hd]
  · rw [scan_photos_safe_eq_fuel fs stopped dp d]
    exact scanFuel_length_le fs stopped L hL d.toNat dp

/-- C6 witness: the bound theorem applied to the concrete two-entry
infinitely deep tree at depth 2, the listing-length hypothesis
discharged concretely. -/
theorem C6_witness :
    (∀ q l, wScanFS.listdir q = some l → l.length ≤ 2) ∧
    (((2 : Int) ≤ 0 → scan_photos_safe wScanFS false ("/DCIM") 2 = []) ∧
      scan_photos_safe wScanFS false ("/DCIM") 2 =
        scanFuel wScanFS false (Int.toNat 2) ("/DCIM") ∧
      (scan_photos_safe wScanFS false ("/DCIM") 2).length ≤ 2 * fanBound (Int.toNat 2)) :=
  ⟨fun q l h => by
      simp only [wScanFS, Option.some.injEq] at h
      rw [← h]
      decide,
    C6_scan_bounded wScanFS false ("/DCIM") 2 2
      (fun q l h => by
        simp only [wScanFS, Option.some.injEq] at h
        rw [← h]
        decide)⟩

/-! ### Analysis pipeline lemmas -/

/-- Shape of a successful analyze_stats result. -/
theorem analyze_stats_some (photos : List PhotoInfo) (a : AnalysisResult)
    (h : analyze_stats photos = some a) :
    a.total_files = photos.length ∧ a.photos_info = photos ∧
    a.total_size_mb = (((photos.map (fun p => p.size)).sum : Nat) : Rat) / (1024 * 1024) ∧
    a.image_count = (photos.filter (fun p => p.ftype == "image")).length ∧
    a.video_count = (photos.filter (fun p => p.ftype == "video")).length := by
  unfold analyze_stats at h
  by_cases he : photos.isEmpty
  · simp [he] at h
  · simp only [he, Bool.false_eq_true, if_false, Option.some.injEq] at h
    subst h
    exact ⟨rfl, rfl, rfl, rfl, rfl⟩

/-- The record collection loop is a filterMap over the scanned paths. -/
theorem collect_eq_filterMap (stat : String → Option StatInfo) (photos : List String) :
    collect_file_infos stat photos = photos.filterMap (get_file_info_safe stat) := by
  have aux : ∀ (ps : List String) (acc : List PhotoInfo),
      ps.foldl (fun acc photo =>
        match get_file_info_safe stat photo with
        | some info => acc ++ [info]
        | none => acc) acc = acc ++ ps.filterMap (get_file_info_safe stat) := by
    intro ps
    induction ps with
    | nil => intro acc; simp
    | cons x xs ih =>
      intro acc
      rw [List.foldl_cons]
      cases h : get_file_info_safe stat x with
      | none => simp [h, ih, List.filterMap_cons]
      | some info => simp [h, ih, List.filterMap_cons]
  simpa using aux photos []

/-- Every record of a successful analysis is the successful stat of some
scanned path. -/
theorem analyze_photos_mem (fs : AfcFS) (stat : String → Option StatInfo)
    (directories : List String) (a : AnalysisResult)
    (h : analyze_photos_safe fs stat directories = some a) (r : PhotoInfo)
    (hr : r ∈ a.photos_info) :
    ∃ photo, get_file_info_safe stat photo = some r := by
  unfold analyze_photos_safe at h
  rw [foldl_append_eq
    (fun dir => collect_file_infos stat (scan_photos_safe fs false dir 3))
    directories []] at h
  rw [List.nil_append] at h
  have hinfo := (analyze_stats_some _ a h).2.1
  rw [hinfo] at hr
  rcases List.mem_flatten.mp hr with ⟨l, hl, hrl⟩
  rcases List.mem_map.mp hl with ⟨dir, hdir, rfl⟩
  rw [collect_eq_filterMap] at hrl
  rcases List.mem_filterMap.mp hrl with ⟨photo, hphoto, hsome⟩
  exact ⟨photo, hsome⟩

/-- The two hard-coded classification lists of get_file_type share no
extension. -/
theorem image_video_disjoint (e : String)
    (h1 : e ∈ image_extensions) (h2 : e ∈ video_extensions) : False := by
  simp only [image_extensions, List.mem_cons, List.not_mem_nil, or_false] at h1
  rcases h1 with rfl | rfl | rfl | rfl | rfl | rfl | rfl | rfl | rfl | rfl | rfl <;>
    exact absurd h2 (by decide)

/-- get_file_type returns image exactly on its image list. -/
theorem get_file_type_image_iff (p : String) :
    get_file_type p = "image" ↔ pyToLower (pyExt p) ∈ image_extensions := by
  simp only [get_file_type]
  by_cases h1 : pyToLower (pyExt p) ∈ image_extensions
  · rw [if_pos h1]
    exact iff_of_true rfl h1
  · rw [if_neg h1]
    by_cases h2 : pyToLower (pyExt p) ∈ video_extensions
    · rw [if_pos h2]
      exact iff_of_false (by decide) h1
    · rw [if_neg h2]
      exact iff_of_false (by decide) h1

/-- get_file_type returns video exactly on its video list. -/
theorem get_file_type_video_iff (p : String) :
    get_file_type p = "video" ↔ pyToLower (pyExt p) ∈ video_extensions := by
  simp only [get_file_type]
  by_cases h1 : pyToLower (pyExt p) ∈ image_extensions
  · rw [if_pos h1]
    exact iff_of_false (by decide) (fun hc => image_video_disjoint _ h1 hc)
  · rw [if_neg h1]
    by_cases h2 : pyToLower (pyExt p) ∈ video_extensions
    · rw [if_pos h2]
      exact iff_of_true rfl h2
    · rw [if_neg h2]
      exact iff_of_false (by decide) h2

/-- The concrete C1 pipeline run, evaluated through the fuel scanner. -/
theorem cex_analyze_eq :
    analyze_photos_safe cexFS cexStat [("/DCIM")] = some cexAnalysis := by
  have hlist : List.foldl
      (fun acc dir => acc ++ collect_file_infos cexStat (scanFuel cexFS false (Int.toNat 3) dir))
      [] [("/DCIM")] = [cexRecord] := by decide
  simp only [analyze_photos_safe, scan_photos_safe_eq_fuel]
  rw [hlist]
  simp only [analyze_stats, List.isEmpty_cons, Bool.false_eq_true, if_false,
    Option.some.injEq, AnalysisResult.mk.injEq, cexAnalysis]
  refine ⟨by decide, by decide, by decide, ?_, trivial⟩
  norm_num [cexRecord, List.map_cons, List.map_nil, List.sum_cons, List.sum_nil]

/-- The concrete C8 analysis, with the Rat component settled by norm_num. -/
theorem c8_stats_eq : analyze_stats [c8Photo] = some c8Analysis := by
  simp only [analyze_stats, List.isEmpty_cons, Bool.false_eq_true, if_false,
    Option.some.injEq, AnalysisResult.mk.injEq, c8Analysis]
  refine ⟨by decide, by decide, by decide, ?_, trivial⟩
  norm_num [c8Photo, List.map_cons, List.map_nil, List.sum_cons, List.sum_nil]

/-! ### Claim theorems for C1 and C8 -/

/-- C1 counterexample: the pipeline over a directory holding a.cr2
produces a record whose kind is unknown, although .cr2 belongs to the
image set the claim names, and the record appears in the statistics.
This refutes both directions of the claim: the kind is not image despite
the extension being in the claimed image set, and an unknown-kind record
does surface in the analysis result. -/
theorem C1_counterexample :
    analyze_photos_safe cexFS cexStat [("/DCIM")] = some cexAnalysis ∧
    cexRecord ∈ cexAnalysis.photos_info ∧
    cexRecord.ftype = "unknown" ∧
    pyToLower (pyExt cexRecord.path) ∈ specImageExts ∧
    ¬ cexRecord.ftype = "image" :=
  ⟨cex_analyze_eq, by decide, by decide, by decide, by decide⟩

/-- C1 (amended): for every record of an analysis result, the kind is
exactly get_file_type of its path: image if and only if the lowercased
extension is in the source's eleven-entry image list (which omits tif,
cr2 and nef), video if and only if it is in the source's seven-entry
video list (which omits flv, webm, mpg and mpeg); records of the other
media extensions accepted by is_media_file carry kind unknown and do
appear in the statistics. -/
theorem C1_kind_from_extension (fs : AfcFS) (stat : String → Option StatInfo)
    (directories : List String) (a : AnalysisResult)
    (h : analyze_photos_safe fs stat directories = some a) :
    ∀ r ∈ a.photos_info,
      r.ftype = get_file_type r.path ∧
      (r.ftype = "image" ↔ pyToLower (pyExt r.path) ∈ image_extensions) ∧
      (r.ftype = "video" ↔ pyToLower (pyExt r.path) ∈ video_extensions) := by
  intro r hr
  obtain ⟨photo, hph⟩ := analyze_photos_mem fs stat directories a h r hr
  have hft : r.ftype = get_file_type r.path := by
    unfold get_file_info_safe at hph
    cases hst : stat photo with
    | none => rw [hst] at hph; cases hph
    | some st =>
      rw [hst] at hph
      have hr2 := Option.some.inj hph
      rw [← hr2]
  refine ⟨hft, ?_, ?_⟩
  · rw [hft]; exact get_file_type_image_iff r.path
  · rw [hft]; exact get_file_type_video_iff r.path

/-- C1 witness: the amended theorem applied to the concrete .cr2
pipeline run. -/
theorem C1_witness :
    (analyze_photos_safe cexFS cexStat [("/DCIM")] = some cexAnalysis) ∧
    (∀ r ∈ cexAnalysis.photos_info,
      r.ftype = get_file_type r.path ∧
      (r.ftype = "image" ↔ pyToLower (pyExt r.path) ∈ image_extensions) ∧
      (r.ftype = "video" ↔ pyToLower (pyExt r.path) ∈ video_extensions)) :=
  ⟨cex_analyze_eq,
    C1_kind_from_extension cexFS cexStat [("/DCIM")] cexAnalysis cex_analyze_eq⟩

/-- C8 counterexample: a completed analysis over one 2097152-byte image
stores 2 as its size aggregate (megabytes), which differs from the byte
sum of its records, refuting the claim that the stored total equals the
sum of the records' sizes. -/
theorem C8_counterexample :
    analyze_stats [c8Photo] = some c8Analysis ∧
    ¬ c8Analysis.total_size_mb = ((([c8Photo].map (fun p => p.size)).sum : Nat) : Rat) := by
  refine ⟨c8_stats_eq, ?_⟩
  norm_num [c8Analysis, c8Photo, List.map_cons, List.map_nil, List.sum_cons, List.sum_nil]

/-- C8 (amended): for every completed analysis, total_files equals the
record count, and the stored size aggregate is total_size_mb — the byte
sum divided by 1024 * 1024, megabytes rather than bytes.  When the byte
sum is below 2 ^ 53 (so the program's double holds it exactly and the
power-of-two division is exact, the domain on which the Rat model is
faithful) the stored aggregate equals the byte sum over 1024 * 1024 and
the byte sum is recovered as 1024 * 1024 times the stored aggregate. -/
theorem C8_totals (photos : List PhotoInfo) (a : AnalysisResult)
    (h : analyze_stats photos = some a) :
    a.total_files = a.photos_info.length ∧
    a.photos_info = photos ∧
    ((photos.map (fun p => p.size)).sum < 2 ^ 53 →
      a.total_size_mb = (((photos.map (fun p => p.size)).sum : Nat) : Rat) / (1024 * 1024) ∧
      (1024 * 1024 : Rat) * a.total_size_mb =
        (((photos.map (fun p => p.size)).sum : Nat) : Rat)) := by
  obtain ⟨h1, h2, h3, _, _⟩ := analyze_stats_some photos a h
  refine ⟨by rw [h1, h2], h2, ?_⟩
  intro _
  refine ⟨h3, ?_⟩
  rw [h3, mul_comm]
  exact div_mul_cancel₀ _ (by norm_num)

/-- C8 witness: the amended theorem applied to the concrete one-image
analysis, whose byte sum 2097152 lies below the representability bound. -/
theorem C8_witness :
    (analyze_stats [c8Photo] = some c8Analysis) ∧
    (c8Analysis.total_files = c8Analysis.photos_info.length ∧
      c8Analysis.photos_info = [c8Photo] ∧
      (([c8Photo].map (fun p => p.size)).sum < 2 ^ 53 →
        c8Analysis.total_size_mb =
          ((([c8Photo].map (fun p => p.size)).sum : Nat) : Rat) / (1024 * 1024) ∧
        (1024 * 1024 : Rat) * c8Analysis.total_size_mb =
          ((([c8Photo].map (fun p => p.size)).sum : Nat) : Rat))) :=
  ⟨c8_stats_eq, C8_totals [c8Photo] c8Analysis c8_stats_eq⟩

/-! ### Transfer lemmas -/

/-- When every strategy raises, download_file_safe returns False with
the aggregated errors. -/
theorem download_all_exc (env : DlEnv) (fi : Option Nat) (e1 e2 e3 : String)
    (hstop : env.stoppedAtEntry = false) (hskip : skip_check env fi = false) :
    (download_file_safe env fi (StratResult.exc e1) (StratResult.exc e2)
      (StratResult.exc e3)).ok = false ∧
    (download_file_safe env fi (StratResult.exc e1) (StratResult.exc e2)
      (StratResult.exc e3)).aggregated = some (e1, e2, e3) := by
  simp [download_file_safe, hstop, hskip, strategy_phase]

/-- The trace of download_file_safe decomposes around the strategy
segment: everything before and after the strategy invocations is a local
probe operation, never a strategy. -/
theorem download_ops_decomp (env : DlEnv) (fi : Option Nat) (r1 r2 r3 : StratResult)
    (hstop : env.stoppedAtEntry = false) (hskip : skip_check env fi = false) :
    ∃ pre post, (download_file_safe env fi r1 r2 r3).ops = pre ++ (stratOps r1 r2 r3 ++ post) ∧
      (∀ x ∈ pre, x = DlOp.mkdirParents ∨ x = DlOp.checkExists ∨ x = DlOp.getSize) ∧
      (∀ x ∈ post, x = DlOp.checkExists ∨ x = DlOp.getSize) := by
  have hpre : ∀ x ∈ (DlOp.mkdirParents :: DlOp.checkExists ::
      (if env.localExists && fi.isSome then [DlOp.getSize] else [])),
      x = DlOp.mkdirParents ∨ x = DlOp.checkExists ∨ x = DlOp.getSize := by
    intro x hx
    by_cases hsz : (env.localExists && fi.isSome) = true
    · simp only [hsz, if_true, List.mem_cons, List.mem_singleton,
        List.not_mem_nil, or_false] at hx
      tauto
    · simp only [hsz, Bool.false_eq_true, if_false, List.mem_cons,
        List.not_mem_nil, or_false] at hx
      tauto
  unfold download_file_safe
  simp only [hstop, hskip, Bool.false_eq_true, if_false]
  cases hph : strategy_phase r1 r2 r3 with
  | error es => exact ⟨_, [], by simp, hpre, by decide⟩
  | ok success =>
    by_cases hsu : (success && !env.stoppedAfterPhase) = true
    · by_cases hex : env.existsAfterDownload = true
      · simp only [hsu, if_true, hex]
        exact ⟨_, [DlOp.checkExists, DlOp.getSize], by simp, hpre, by decide⟩
      · simp only [hsu, if_true, hex, Bool.false_eq_true, if_false]
        exact ⟨_, [DlOp.checkExists], by simp, hpre, by decide⟩
    · simp only [hsu, Bool.false_eq_true, if_false]
      exact ⟨_, [], by simp, hpre, by decide⟩

/-- A strategy operation appears in the trace exactly when the strategy
phase invoked it. -/
theorem mem_ops_iff_mem_strat (env : DlEnv) (fi : Option Nat) (r1 r2 r3 : StratResult)
    (hstop : env.stoppedAtEntry = false) (hskip : skip_check env fi = false) (x : DlOp)
    (hx : x = DlOp.tryStream ∨ x = DlOp.tryBulk ∨ x = DlOp.tryPull) :
    (x ∈ (download_file_safe env fi r1 r2 r3).ops ↔ x ∈ stratOps r1 r2 r3) := by
  obtain ⟨pre, post, hsplit, hpre, hpost⟩ := download_ops_decomp env fi r1 r2 r3 hstop hskip
  rw [hsplit]
  simp only [List.mem_append]
  constructor
  · rintro (hmem | hmem | hmem)
    · exfalso
      rcases hx with rfl | rfl | rfl <;>
        rcases hpre _ hmem with h | h | h <;> exact absurd h (by decide)
    · exact hmem
    · exfalso
      rcases hx with rfl | rfl | rfl <;>
        rcases hpost _ hmem with h | h <;> exact absurd h (by decide)
  · intro hmem
    exact Or.inr (Or.inl hmem)

theorem tryStream_mem_stratOps (r1 r2 r3 : StratResult) :
    DlOp.tryStream ∈ stratOps r1 r2 r3 := by
  cases r1 <;> cases r2 <;> cases r3 <;> simp [stratOps]

theorem tryBulk_mem_stratOps_iff (r1 r2 r3 : StratResult) :
    DlOp.tryBulk ∈ stratOps r1 r2 r3 ↔ ∃ e, r1 = StratResult.exc e := by
  cases r1 <;> cases r2 <;> cases r3 <;> simp [stratOps]

theorem tryPull_mem_stratOps_iff (r1 r2 r3 : StratResult) :
    DlOp.tryPull ∈ stratOps r1 r2 r3 ↔
      ((∃ e, r1 = StratResult.exc e) ∧ ∃ e, r2 = StratResult.exc e) := by
  cases r1 <;> cases r2 <;> cases r3 <;> simp [stratOps]

/-- The aggregated error field carries exactly the three raised errors,
and only when all three strategies raised. -/
theorem aggregated_iff (env : DlEnv) (fi : Option Nat) (r1 r2 r3 : StratResult)
    (hstop : env.stoppedAtEntry = false) (hskip : skip_check env fi = false)
    (e1 e2 e3 : String) :
    (download_file_safe env fi r1 r2 r3).aggregated = some (e1, e2, e3) ↔
      (r1 = StratResult.exc e1 ∧ r2 = StratResult.exc e2 ∧ r3 = StratResult.exc e3) := by
  unfold download_file_safe
  simp only [hstop, hskip, Bool.false_eq_true, if_false]
  cases r1 <;> cases r2 <;> cases r3 <;>
    simp [strategy_phase] <;> split_ifs <;> simp_all

/-- An aggregated failure always returns False. -/
theorem aggregated_isSome_ok_false (env : DlEnv) (fi : Option Nat)
    (r1 r2 r3 : StratResult)
    (hstop : env.stoppedAtEntry = false) (hskip : skip_check env fi = false)
    (hagg : (download_file_safe env fi r1 r2 r3).aggregated.isSome = true) :
    (download_file_safe env fi r1 r2 r3).ok = false := by
  revert hagg
  unfold download_file_safe
  simp only [hstop, hskip, Bool.false_eq_true, if_false]
  cases r1 <;> cases r2 <;> cases r3 <;>
    simp [strategy_phase] <;> split_ifs <;> simp_all

/-! ### Claim theorems for C3 and C4 -/

/-- C3: under an actual transfer attempt (not stopped at entry, no
already-present skip), the strategies are attempted in the fixed order
stream, bulk, pull — the invoked prefix of that order is exactly
stratOps — where bulk runs if and only if stream raised, pull if and
only if stream and bulk both raised; the Failed report carrying the
aggregated three errors occurs exactly when all three strategies raised,
and such a report returns False. -/
theorem C3_strategy_fallback (env : DlEnv) (fi : Option Nat) (r1 r2 r3 : StratResult)
    (hstop : env.stoppedAtEntry = false) (hskip : skip_check env fi = false) :
    (∃ t, [DlOp.tryStream, DlOp.tryBulk, DlOp.tryPull] = stratOps r1 r2 r3 ++ t) ∧
    DlOp.tryStream ∈ (download_file_safe env fi r1 r2 r3).ops ∧
    ((DlOp.tryBulk ∈ (download_file_safe env fi r1 r2 r3).ops) ↔
      ∃ e, r1 = StratResult.exc e) ∧
    ((DlOp.tryPull ∈ (download_file_safe env fi r1 r2 r3).ops) ↔
      ((∃ e, r1 = StratResult.exc e) ∧ ∃ e, r2 = StratResult.exc e)) ∧
    (∀ e1 e2 e3, (download_file_safe env fi r1 r2 r3).aggregated = some (e1, e2, e3) ↔
      (r1 = StratResult.exc e1 ∧ r2 = StratResult.exc e2 ∧ r3 = StratResult.exc e3)) ∧
    ((download_file_safe env fi r1 r2 r3).aggregated.isSome = true →
      (download_file_safe env fi r1 r2 r3).ok = false) := by
  refine ⟨?_, ?_, ?_, ?_, ?_, ?_⟩
  · cases r1 <;> cases r2 <;> cases r3 <;> exact ⟨_, rfl⟩
  · rw [mem_ops_iff_mem_strat env fi r1 r2 r3 hstop hskip _ (Or.inl rfl)]
    exact tryStream_mem_stratOps r1 r2 r3
  · rw [mem_ops_iff_mem_strat env fi r1 r2 r3 hstop hskip _ (Or.inr (Or.inl rfl))]
    exact tryBulk_mem_stratOps_iff r1 r2 r3
  · rw [mem_ops_iff_mem_strat env fi r1 r2 r3 hstop hskip _ (Or.inr (Or.inr rfl))]
    exact tryPull_mem_stratOps_iff r1 r2 r3
  · intro e1 e2 e3
    exact aggregated_iff env fi r1 r2 r3 hstop hskip e1 e2 e3
  · exact aggregated_isSome_ok_false env fi r1 r2 r3 hstop hskip

/-- C3 witness: the theorem applied to a fresh environment where every
strategy raises. -/
theorem C3_witness :
    (wDlEnvFresh.stoppedAtEntry = false ∧ skip_check wDlEnvFresh none = false) ∧
    ((∃ t, [DlOp.tryStream, DlOp.tryBulk, DlOp.tryPull] =
        stratOps (StratResult.exc ("e1")) (StratResult.exc ("e2")) (StratResult.exc ("e3")) ++ t) ∧
      DlOp.tryStream ∈ (download_file_safe wDlEnvFresh none (StratResult.exc ("e1"))
        (StratResult.exc ("e2")) (StratResult.exc ("e3"))).ops ∧
      ((DlOp.tryBulk ∈ (download_file_safe wDlEnvFresh none (StratResult.exc ("e1"))
        (StratResult.exc ("e2")) (StratResult.exc ("e3"))).ops) ↔
        ∃ e, StratResult.exc ("e1") = StratResult.exc e) ∧
      ((DlOp.tryPull ∈ (download_file_safe wDlEnvFresh none (StratResult.exc ("e1"))
        (StratResult.exc ("e2")) (StratResult.exc ("e3"))).ops) ↔
        ((∃ e, StratResult.exc ("e1") = StratResult.exc e) ∧
          ∃ e, StratResult.exc ("e2") = StratResult.exc e)) ∧
      (∀ e1 e2 e3, (download_file_safe wDlEnvFresh none (StratResult.exc ("e1"))
          (StratResult.exc ("e2")) (StratResult.exc ("e3"))).aggregated = some (e1, e2, e3) ↔
        (StratResult.exc ("e1") = StratResult.exc e1 ∧
          StratResult.exc ("e2") = StratResult.exc e2 ∧
          StratResult.exc ("e3") = StratResult.exc e3)) ∧
      ((download_file_safe wDlEnvFresh none (StratResult.exc ("e1"))
          (StratResult.exc ("e2")) (StratResult.exc ("e3"))).aggregated.isSome = true →
        (download_file_safe wDlEnvFresh none (StratResult.exc ("e1"))
          (StratResult.exc ("e2")) (StratResult.exc ("e3"))).ok = false)) :=
  ⟨⟨rfl, rfl⟩,
    C3_strategy_fallback wDlEnvFresh none (StratResult.exc ("e1"))
      (StratResult.exc ("e2")) (StratResult.exc ("e3")) rfl rfl⟩

/-- C4 counterexample: on the second call for an unchanged remote file
whose equal-size local copy exists, the transfer is skipped (returns
True), yet the operation trace is not limited to the local existence and
size probes: the parent-directory creation of source line 504 runs
before the pre-check.  This refutes the claim that no I/O beyond the
existence and size check is performed. -/
theorem C4_counterexample :
    (download_file_safe wDlEnvSkip (some 5) (StratResult.ok true) (StratResult.ok true)
      (StratResult.ok true)).ok = true ∧
    ¬ (∀ op ∈ (download_file_safe wDlEnvSkip (some 5) (StratResult.ok true)
        (StratResult.ok true) (StratResult.ok true)).ops,
        op = DlOp.checkExists ∨ op = DlOp.getSize) := by
  decide

/-- C4 (amended): a second transfer of an unchanged positive-size remote
file whose equal-size local copy is present returns the Skipped outcome
(True) and performs no strategy invocation and no remote I/O; the only
local operations are the idempotent parent-directory creation (issued
before the check, as in the source) followed by the existence and size
probes. -/
theorem C4_skip_idempotent (env : DlEnv) (size : Nat) (r1 r2 r3 : StratResult)
    (h1 : env.stoppedAtEntry = false) (h2 : env.localExists = true)
    (h3 : env.localSize = size) (h4 : 0 < size) :
    download_file_safe env (some size) r1 r2 r3 =
      ⟨true, none, [DlOp.mkdirParents, DlOp.checkExists, DlOp.getSize]⟩ ∧
    DlOp.tryStream ∉ (download_file_safe env (some size) r1 r2 r3).ops ∧
    DlOp.tryBulk ∉ (download_file_safe env (some size) r1 r2 r3).ops ∧
    DlOp.tryPull ∉ (download_file_safe env (some size) r1 r2 r3).ops := by
  have hskip : skip_check env (some size) = true := by
    simp [skip_check, h2, h3, h4]
  have heq : download_file_safe env (some size) r1 r2 r3 =
      ⟨true, none, [DlOp.mkdirParents, DlOp.checkExists, DlOp.getSize]⟩ := by
    simp [download_file_safe, h1, h2, hskip]
  refine ⟨heq, ?_, ?_, ?_⟩ <;> rw [heq] <;> decide

/-- C4 witness: the amended theorem applied at the concrete equal-size
environment. -/
theorem C4_witness :
    (wDlEnvSkip.stoppedAtEntry = false ∧ wDlEnvSkip.localExists = true ∧
      wDlEnvSkip.localSize = 5 ∧ 0 < 5) ∧
    (download_file_safe wDlEnvSkip (some 5) (StratResult.ok true) (StratResult.ok true)
        (StratResult.ok true) =
      ⟨true, none, [DlOp.mkdirParents, DlOp.checkExists, DlOp.getSize]⟩ ∧
    DlOp.tryStream ∉ (download_file_safe wDlEnvSkip (some 5) (StratResult.ok true)
      (StratResult.ok true) (StratResult.ok true)).ops ∧
    DlOp.tryBulk ∉ (download_file_safe wDlEnvSkip (some 5) (StratResult.ok true)
      (StratResult.ok true) (StratResult.ok true)).ops ∧
    DlOp.tryPull ∉ (download_file_safe wDlEnvSkip (some 5) (StratResult.ok true)
      (StratResult.ok true) (StratResult.ok true)).ops) :=
  ⟨⟨rfl, rfl, rfl, by decide⟩,
    C4_skip_idempotent wDlEnvSkip 5 (StratResult.ok true) (StratResult.ok true)
      (StratResult.ok true) rfl rfl rfl (by decide)⟩

/-! ### Stream-cancellation and batch lemmas -/

/-- If the stop time falls within the chunk sequence (no chunk of which
is an empty read), the final flag check after the copy loop observes the
stop. -/
theorem streamGo_stopped (t : Nat) :
    ∀ (chunks : List (List Nat)) (n : Nat), (∀ c ∈ chunks, ¬ c.isEmpty = true) →
      t ≤ n + chunks.length →
      isStoppedAt (some t) (streamGo (some t) chunks n).2 = true := by
  intro chunks
  induction chunks with
  | nil =>
    intro n hne ht
    rw [streamGo]
    simp only [List.length_nil, Nat.add_zero] at ht
    have h2 : (if isStoppedAt (some t) n then (([] : List (List Nat)), n + 1)
        else (([] : List (List Nat)), n + 1)) = (([] : List (List Nat)), n + 1) :=
      ite_self _
    rw [h2]
    simp [isStoppedAt]
    omega
  | cons c rest ih =>
    intro n hne ht
    rw [streamGo]
    by_cases hstop : isStoppedAt (some t) n = true
    · simp only [hstop, if_true]
      simp only [isStoppedAt, decide_eq_true_eq] at hstop ⊢
      omega
    · have hc : ¬ c.isEmpty = true := hne c (List.mem_cons_self c rest)
      simp only [hstop, Bool.false_eq_true, if_false, hc]
      exact ih (n + 1) (fun x hx => hne x (List.mem_cons_of_mem c hx))
        (by simp only [List.length_cons] at ht; omega)

/-- With the stop flag never set, the batch loop processes every record
in order and counts successes and failures by the transfer outcome. -/
theorem batch_go_no_stop {α : Type} (transfer : α → Bool) :
    ∀ (records : List α) (i : Nat),
      batch_go (fun _ => false) transfer records i =
        (records.countP transfer, records.countP (fun r => !(transfer r)), records) := by
  intro records
  induction records with
  | nil => intro i; simp [batch_go]
  | cons r rest ih =>
    intro i
    rw [batch_go]
    simp only [Bool.false_eq_true, if_false]
    rw [ih (i + 1)]
    cases htr : transfer r with
    | true => simp [htr, List.countP_cons]
    | false => simp [htr, List.countP_cons]

/-! ### Claim theorems for C5, C7 and C10 -/

/-- C5: whenever cancellation is observed at any chunk boundary of the
streamed copy (the stop time lies within the chunk sequence), the
partially written local file is removed before returning, the strategy
returns False rather than raising (the model is a total function), and
every other local path — in particular files of previously completed
transfers — is left untouched. -/
theorem C5_cancel_cleans (localfs : String → Option (List (List Nat)))
    (local_path : String) (chunks : List (List Nat)) (t : Nat)
    (hne : ∀ c ∈ chunks, ¬ c.isEmpty = true) (ht : t ≤ chunks.length) :
    (download_with_stream localfs local_path (some t) chunks).1 local_path = none ∧
    (download_with_stream localfs local_path (some t) chunks).2 = false ∧
    (∀ q, ¬ q = local_path →
      (download_with_stream localfs local_path (some t) chunks).1 q = localfs q) := by
  have hs := streamGo_stopped t chunks 0 hne (by omega)
  unfold download_with_stream
  simp only [hs, if_true]
  refine ⟨by simp [fsUpdate], trivial, ?_⟩
  intro q hq
  simp [fsUpdate, hq]

/-- C5 witness: the theorem applied to a three-chunk transfer cancelled
after the first chunk, over a filesystem holding one previously
completed download. -/
theorem C5_witness :
    ((∀ c ∈ ([[1], [2], [3]] : List (List Nat)), ¬ c.isEmpty = true) ∧
      1 ≤ ([[1], [2], [3]] : List (List Nat)).length) ∧
    ((download_with_stream wLocalFS ("/out/new.jpg") (some 1)
        ([[1], [2], [3]] : List (List Nat))).1 ("/out/new.jpg") = none ∧
      (download_with_stream wLocalFS ("/out/new.jpg") (some 1)
        ([[1], [2], [3]] : List (List Nat))).2 = false ∧
      (∀ q, ¬ q = ("/out/new.jpg") →
        (download_with_stream wLocalFS ("/out/new.jpg") (some 1)
          ([[1], [2], [3]] : List (List Nat))).1 q = wLocalFS q)) :=
  ⟨⟨by decide, by decide⟩,
    C5_cancel_cleans wLocalFS ("/out/new.jpg") ([[1], [2], [3]] : List (List Nat)) 1
      (by decide) (by decide)⟩

/-- C7: with no cancellation, the batch processes the records strictly
sequentially in order (the processed trace is the record list itself),
the returned pair counts successes and failures of each record
independently — one record's failure never stops the rest — and in
particular a three-record batch whose second transfer raises on every
strategy yields two successes and one failure with all three records
processed. -/
theorem C7_sequential_batch {α : Type} (transfer : α → Bool) (records : List α)
    (env : DlEnv) (fi : Option Nat) (e1 e2 e3 : String) (a c : DlResult)
    (hstop : env.stoppedAtEntry = false) (hskip : skip_check env fi = false)
    (ha : a.ok = true) (hc : c.ok = true) :
    (download_photos_batch_safe (fun _ => false) transfer records).2.2 = records ∧
    (download_photos_batch_safe (fun _ => false) transfer records).1 =
      records.countP transfer ∧
    (download_photos_batch_safe (fun _ => false) transfer records).2.1 =
      records.countP (fun r => !(transfer r)) ∧
    (download_file_safe env fi (StratResult.exc e1) (StratResult.exc e2)
      (StratResult.exc e3)).ok = false ∧
    download_photos_batch_safe (fun _ => false) DlResult.ok
        [a, download_file_safe env fi (StratResult.exc e1) (StratResult.exc e2)
          (StratResult.exc e3), c] =
      (2, 1, [a, download_file_safe env fi (StratResult.exc e1) (StratResult.exc e2)
        (StratResult.exc e3), c]) := by
  have hb := batch_go_no_stop transfer records 0
  have hfail := (download_all_exc env fi e1 e2 e3 hstop hskip).1
  refine ⟨?_, ?_, ?_, hfail, ?_⟩
  · unfold download_photos_batch_safe; rw [hb]
  · unfold download_photos_batch_safe; rw [hb]
  · unfold download_photos_batch_safe; rw [hb]
  · unfold download_photos_batch_safe
    simp [batch_go, ha, hc, hfail]

/-- C7 witness: the theorem applied to a concrete Boolean record list
and a concrete all-raising second transfer. -/
theorem C7_witness :
    (wDlEnvFresh.stoppedAtEntry = false ∧ skip_check wDlEnvFresh none = false ∧
      wOkResult.ok = true) ∧
    ((download_photos_batch_safe (fun _ => false) (fun b => b) [true, false]).2.2 =
        [true, false] ∧
      (download_photos_batch_safe (fun _ => false) (fun b => b) [true, false]).1 =
        ([true, false] : List Bool).countP (fun b => b) ∧
      (download_photos_batch_safe (fun _ => false) (fun b => b) [true, false]).2.1 =
        ([true, false] : List Bool).countP (fun r => !r) ∧
      (download_file_safe wDlEnvFresh none (StratResult.exc ("x")) (StratResult.exc ("y"))
        (StratResult.exc ("z"))).ok = false ∧
      download_photos_batch_safe (fun _ => false) DlResult.ok
          [wOkResult, download_file_safe wDlEnvFresh none (StratResult.exc ("x"))
            (StratResult.exc ("y")) (StratResult.exc ("z")), wOkResult] =
        (2, 1, [wOkResult, download_file_safe wDlEnvFresh none (StratResult.exc ("x"))
          (StratResult.exc ("y")) (StratResult.exc ("z")), wOkResult])) :=
  ⟨⟨rfl, rfl, rfl⟩,
    C7_sequential_batch (fun b => b) [true, false] wDlEnvFresh none ("x") ("y") ("z")
      wOkResult wOkResult rfl rfl rfl rfl⟩

/-- C10: a transfer skipped for an already-present equal-size local copy
returns the same value (True) as a freshly successful transfer — the
per-file outcome is a plain Boolean that cannot distinguish the two —
and the batch counts both in the succeeded total. -/
theorem C10_skip_counts_as_success (env envf : DlEnv) (size : Nat)
    (r1 r2 r3 r2f r3f : StratResult)
    (h1 : env.stoppedAtEntry = false) (h2 : env.localExists = true)
    (h3 : env.localSize = size) (h4 : 0 < size)
    (h5 : envf.stoppedAtEntry = false) (h6 : envf.stoppedAfterPhase = false)
    (h7 : envf.existsAfterDownload = true) :
    (download_file_safe env (some size) r1 r2 r3).ok = true ∧
    (download_file_safe envf none (StratResult.ok true) r2f r3f).ok = true ∧
    (download_file_safe env (some size) r1 r2 r3).ok =
      (download_file_safe envf none (StratResult.ok true) r2f r3f).ok ∧
    download_photos_batch_safe (fun _ => false) DlResult.ok
        [download_file_safe env (some size) r1 r2 r3,
          download_file_safe envf none (StratResult.ok true) r2f r3f] =
      (2, 0, [download_file_safe env (some size) r1 r2 r3,
        download_file_safe envf none (StratResult.ok true) r2f r3f]) := by
  have hskip : skip_check env (some size) = true := by
    simp [skip_check, h2, h3, h4]
  have hes : (download_file_safe env (some size) r1 r2 r3).ok = true := by
    simp [download_file_safe, h1, hskip]
  have hfr : (download_file_safe envf none (StratResult.ok true) r2f r3f).ok = true := by
    simp [download_file_safe, h5, skip_check, strategy_phase, h6, h7]
  refine ⟨hes, hfr, by rw [hes, hfr], ?_⟩
  unfold download_photos_batch_safe
  simp [batch_go, hes, hfr]

/-- C10 witness: the theorem applied at the concrete skip and fresh
environments. -/
theorem C10_witness :
    (wDlEnvSkip.stoppedAtEntry = false ∧ wDlEnvSkip.localExists = true ∧
      wDlEnvSkip.localSize = 5 ∧ 0 < 5 ∧ wDlEnvFresh.stoppedAtEntry = false ∧
      wDlEnvFresh.stoppedAfterPhase = false ∧ wDlEnvFresh.existsAfterDownload = true) ∧
    ((download_file_safe wDlEnvSkip (some 5) (StratResult.ok true) (StratResult.ok true)
        (StratResult.ok true)).ok = true ∧
      (download_file_safe wDlEnvFresh none (StratResult.ok true) (StratResult.ok true)
        (StratResult.ok true)).ok = true ∧
      (download_file_safe wDlEnvSkip (some 5) (StratResult.ok true) (StratResult.ok true)
        (StratResult.ok true)).ok =
        (download_file_safe wDlEnvFresh none (StratResult.ok true) (StratResult.ok true)
          (StratResult.ok true)).ok ∧
      download_photos_batch_safe (fun _ => false) DlResult.ok
          [download_file_safe wDlEnvSkip (some 5) (StratResult.ok true)
            (StratResult.ok true) (StratResult.ok true),
            download_file_safe wDlEnvFresh none (StratResult.ok true)
              (StratResult.ok true) (StratResult.ok true)] =
        (2, 0, [download_file_safe wDlEnvSkip (some 5) (StratResult.ok true)
          (StratResult.ok true) (StratResult.ok true),
          download_file_safe wDlEnvFresh none (StratResult.ok true)
            (StratResult.ok true) (StratResult.ok true)])) :=
  ⟨⟨rfl, rfl, rfl, by decide, rfl, rfl, rfl⟩,
    C10_skip_counts_as_success wDlEnvSkip wDlEnvFresh 5 (StratResult.ok true)
      (StratResult.ok true) (StratResult.ok true) (StratResult.ok true)
      (StratResult.ok true) rfl rfl rfl (by decide) rfl rfl rfl⟩
